import Mathlib

/-!
Shallow embedding of the fastapi-ecommerce-microservice core:
the product store (src/services/product_service.py), the order workflow
(src/services/order_service.py), the request schemas
(src/schemas/product.py, src/schemas/order.py) and the HTTP error mapping
of the order router (src/routers/orders.py).

Modelling conventions:
* MongoDB documents become Lean structures; a collection is a `List` of
  documents, and the `_id` unique index shows up as a `Nodup` hypothesis
  on the list of ids where a statement needs it.
* `ObjectId`s are abstract keys, modelled as `Nat`; timestamps
  (`datetime.utcnow()`) are an abstract clock value `Nat` passed to each
  operation.
* Python strings on which the code computes (`.strip()`, `.lower()`,
  regular-expression search) are modelled as `List Char`, restricted to
  the ASCII behaviour of those operations; strings that are only carried
  around or compared (error messages, user ids) stay `String`.
* Python exceptions become an explicit error type `PyError`; `try/except`
  blocks become `match` on `Except` values.
* MongoDB server semantics embedded here: `update_one` applies its filter
  and update atomically to the first matching document; `find` applies
  `sort` before `skip`/`limit` regardless of the order in which the
  cursor methods are chained; `$regex` with `$options: "i"` is
  case-insensitive regular-expression search (embedded for the fragment
  of patterns built from literal characters and the `.` metacharacter).
* The race window of the order workflow (between the optimistic pre-check
  and the conditional decrement, src/services/order_service.py lines
  34-60) is made explicit as an `interfere` parameter: an arbitrary
  transformation of the product collection representing writes of
  concurrent requests that land inside the window.
-/

namespace Shop

/-- Python `str.strip()` (ASCII whitespace), on `List Char`. -/
def stripChars (cs : List Char) : List Char :=
  ((cs.dropWhile Char.isWhitespace).reverse.dropWhile Char.isWhitespace).reverse

/-- Python `str.lower()` (ASCII letters), on `List Char`. -/
def lowerChars (cs : List Char) : List Char :=
  cs.map Char.toLower

/-- A product document of the `products` collection
(src/services/product_service.py lines 40-47). -/
structure Product where
  id : Nat
  name : List Char
  price : Rat
  size : List (List Char)
  available_quantity : Int
  created_at : Nat
  updated_at : Nat
deriving DecidableEq

/-- The quantity bound of the `update_one` filter in
`ProductService.update_product_quantity` (src/services/product_service.py
line 163): `abs(quantity_change) if quantity_change < 0 else 0`. -/
def minRequired (chg : Int) : Int :=
  if chg < 0 then -chg else 0

/-- The full `update_one` filter of `update_product_quantity`
(src/services/product_service.py lines 161-164): `_id` equals the target
and `available_quantity` is at least `minRequired`. -/
def updMatch (pid : Nat) (chg : Int) (p : Product) : Bool :=
  p.id == pid && decide (minRequired chg ≤ p.available_quantity)

/-- The update document of `update_product_quantity`
(src/services/product_service.py lines 165-168): `$inc` the quantity by
`chg` and `$set updated_at` to the current time. -/
def applyUpd (chg : Int) (now : Nat) (p : Product) : Product :=
  { p with available_quantity := p.available_quantity + chg, updated_at := now }

/-- MongoDB `update_one`: apply the filter/update of
`update_product_quantity` to the first matching document, returning
whether a document was modified together with the new collection. -/
def updateOne : List Product → Nat → Int → Nat → Bool × List Product
  | [], _, _, _ => (false, [])
  | p :: rest, pid, chg, now =>
    if updMatch pid chg p then
      (true, applyUpd chg now p :: rest)
    else
      let r := updateOne rest pid chg now
      (r.1, p :: r.2)

/-- `ProductService.update_product_quantity`
(src/services/product_service.py lines 148-175): conditional atomic
update, returns `modified_count > 0`. -/
def update_product_quantity (ps : List Product) (pid : Nat) (chg : Int) (now : Nat) :
    Bool × List Product :=
  updateOne ps pid chg now

/-- `ProductService.get_product_by_id`
(src/services/product_service.py lines 128-146): `find_one` on `_id`. -/
def get_product_by_id (ps : List Product) (pid : Nat) : Option Product :=
  ps.find? (fun p => p.id == pid)

/-- The PCRE metacharacters of a MongoDB `$regex` pattern. A pattern
none of whose characters is a metacharacter is matched by the server as
a plain literal (case-insensitively under `$options: "i"`), which is
exactly the fragment on which the spec's literal-substring reading can
coincide with the code's behaviour. -/
def isRegexMeta (c : Char) : Bool :=
  ['.', '^', '$', '*', '+', '?', '(', ')', '[', ']', '\x7b', '\x7d', '\\', '|'].contains c

/-- One pattern character of a MongoDB `$regex` with `$options: "i"`
against one subject character, for the embedded pattern fragment of
literal characters and the `.` metacharacter: `.` matches anything, a
literal character matches case-insensitively. Other PCRE metacharacters
are not given their regex reading here, so every theorem below reads a
pattern through this model only inside the fragment: the counterexample
uses `.` alone, and the literal-substring theorem requires (via
`isRegexMeta`) that no metacharacter occurs at all — on that sub-fragment
the all-literal reading agrees with PCRE. -/
def charPatMatch (pc c : Char) : Bool :=
  pc == '.' || pc.toLower == c.toLower

/-- Anchored match of a pattern (literal characters and `.`) at the head
of the subject. -/
def matchHere : List Char → List Char → Bool
  | [], _ => true
  | _ :: _, [] => false
  | pc :: pr, c :: cr => charPatMatch pc c && matchHere pr cr

/-- Unanchored `$regex` search, as applied by the `name` filter of
`ProductService.list_products` (src/services/product_service.py line 93):
the pattern may match at any position of the subject. Like
`charPatMatch`, this embeds the server's search for the
literal-plus-`.` pattern fragment only; statements about patterns
outside that fragment are guarded by an `isRegexMeta` hypothesis. -/
def regexSearch (pat : List Char) : List Char → Bool
  | [] => matchHere pat []
  | c :: cr => matchHere pat (c :: cr) || regexSearch pat cr

/-- Spec-side comparison definition (not from the source): anchored
case-insensitive literal prefix test, for the spec's reading of the name
filter as a literal substring. -/
def litPrefCI : List Char → List Char → Bool
  | [], _ => true
  | _ :: _, [] => false
  | a :: ar, b :: br => a.toLower == b.toLower && litPrefCI ar br

/-- Spec-side comparison definition (not from the source): `needle`
occurs in the subject as a case-insensitive literal substring. -/
def litSubstrCI (needle : List Char) : List Char → Bool
  | [] => litPrefCI needle []
  | c :: cr => litPrefCI needle (c :: cr) || litSubstrCI needle cr

/-- `utils/pagination.py` `PaginationParams`; the bounds `limit ∈ [1,100]`
and `offset ≥ 0` are the callers' contract and appear as hypotheses. -/
structure PaginationParams where
  limit : Nat
  offset : Nat

/-- The `sort("_id", 1)` of `ProductService.list_products`
(src/services/product_service.py line 107): the collection ordered by id
ascending. -/
def sortById (ps : List Product) : List Product :=
  List.insertionSort (fun a b => a.id ≤ b.id) ps

/-- `ProductService.list_products` (src/services/product_service.py lines
70-122): build the query from the optional name filter (`$regex` with
`$options: "i"`; skipped for `None` or the empty string, Python
truthiness) and the optional size filter (`$in [size_filter.lower()]`),
then run the cursor. The MongoDB server applies `sort` before
`skip`/`limit` even though the code chains `.skip().limit()` before
`.sort()`. -/
def list_products (ps : List Product) (name_filter : Option (List Char))
    (size_filter : Option (List Char)) (pagination : Option PaginationParams) :
    List Product :=
  let q1 := match name_filter with
    | some f => if f = [] then ps else ps.filter (fun p => regexSearch f p.name)
    | none => ps
  let q2 := match size_filter with
    | some s => if s = [] then q1
        else q1.filter (fun p => p.size.contains (lowerChars s))
    | none => q1
  let sorted := sortById q2
  match pagination with
  | some pg => (sorted.drop pg.offset).take pg.limit
  | none => sorted

/-- The raw body of a `POST /products` request, `ProductIn`
(src/schemas/product.py lines 28-57), before validation. -/
structure ProductIn where
  name : List Char
  price : Rat
  size : List (List Char)
  available_quantity : Int

/-- A validated `ProductIn`: what the service layer receives after the
pydantic field constraints and validators have run. -/
structure ValidProduct where
  name : List Char
  price : Rat
  size : List (List Char)
  available_quantity : Int

/-- The loop body of the `validate_sizes` validator
(src/schemas/product.py lines 42-49): strip each size, reject an empty
result, collect the lower-cased strip. -/
def validateSizesGo : List (List Char) → Except String (List (List Char))
  | [] => Except.ok []
  | s :: rest =>
    if stripChars s = [] then Except.error "Size cannot be empty"
    else
      match validateSizesGo rest with
      | Except.error e => Except.error e
      | Except.ok vs => Except.ok (lowerChars (stripChars s) :: vs)

/-- The `validate_sizes` validator (src/schemas/product.py lines 36-49). -/
def validate_sizes (v : List (List Char)) : Except String (List (List Char)) :=
  if v = [] then Except.error "At least one size must be provided"
  else validateSizesGo v

/-- `ProductIn` validation: the pydantic `Field` constraints
(`min_length=1`, `max_length=200` on name; `gt=0` on price; `min_items=1`
on size; `ge=0` on quantity) and the two validators `validate_name` and
`validate_sizes`, in field declaration order (src/schemas/product.py
lines 31-57). -/
def validateProductIn (p : ProductIn) : Except String ValidProduct :=
  if p.name.length < 1 then Except.error "ensure this value has at least 1 characters"
  else if 200 < p.name.length then Except.error "ensure this value has at most 200 characters"
  else if stripChars p.name = [] then Except.error "Product name cannot be empty"
  else if p.price ≤ 0 then Except.error "ensure this value is greater than 0"
  else if p.size.length < 1 then Except.error "ensure this value has at least 1 items"
  else
    match validate_sizes p.size with
    | Except.error e => Except.error e
    | Except.ok sz =>
      if p.available_quantity < 0 then
        Except.error "ensure this value is greater than or equal to 0"
      else Except.ok ⟨stripChars p.name, p.price, sz, p.available_quantity⟩

/-- The store effect of `ProductService.create_product`
(src/services/product_service.py lines 40-50): insert the document built
from the validated input, with a fresh id and both timestamps set to the
current time. -/
def create_product (ps : List Product) (v : ValidProduct) (newId now : Nat) :
    List Product :=
  ps ++ [⟨newId, v.name, v.price, v.size, v.available_quantity, now, now⟩]

/-- A validated `POST /orders` body, `OrderIn` (src/schemas/order.py
lines 11-31); the pydantic constraint `quantity > 0` (`gt=0`) appears as
a hypothesis where needed. -/
structure OrderIn where
  user_id : String
  product_id : Nat
  quantity : Int

/-- An order document of the `orders` collection
(src/services/order_service.py lines 44-49). -/
structure OrderDoc where
  id : Nat
  user_id : String
  product_id : Nat
  quantity : Int
  created_at : Nat
deriving DecidableEq

/-- The persistent state the order workflow touches: both collections,
plus the source of fresh `ObjectId`s for order inserts. -/
structure DB where
  products : List Product
  orders : List OrderDoc
  nextOrderId : Nat

/-- The Python exception kinds the order path distinguishes
(src/services/order_service.py, src/routers/orders.py): `ValueError`,
`FileNotFoundError`, `SystemError`, and any other `Exception`. -/
inductive PyError
  | valueError (msg : String)
  | fileNotFoundError (msg : String)
  | systemError (msg : String)
  | otherError (msg : String)
deriving DecidableEq

/-- Message of the `FileNotFoundError` raised for an absent product
(src/services/order_service.py line 37). -/
def notFoundMsg (pid : Nat) : String :=
  "Product with ID " ++ toString pid ++ " not found"

/-- Message of the `ValueError` raised for insufficient stock
(src/services/order_service.py lines 40-42). -/
def insufficientMsg (avail req : Int) : String :=
  "Insufficient quantity. Available: " ++ toString avail ++ ", Requested: " ++ toString req

/-- The `except` chain of `OrderService.create_order`
(src/services/order_service.py lines 78-82): `ValueError` and
`FileNotFoundError` are re-raised; every other exception is replaced by
`ValueError("Failed to create order due to system error")`. -/
def serviceWrap (r : Except PyError OrderDoc) : Except PyError OrderDoc :=
  match r with
  | Except.error (PyError.systemError _) =>
      Except.error (PyError.valueError "Failed to create order due to system error")
  | Except.error (PyError.otherError _) =>
      Except.error (PyError.valueError "Failed to create order due to system error")
  | x => x

/-- The body of the `try` block of `OrderService.create_order`
(src/services/order_service.py lines 31-76): look the product up, check
stock, insert the order document, run the conditional decrement, and on
decrement failure delete the just-inserted order and raise
`ValueError("Failed to update product quantity")`. `interfere` is the
effect of concurrent writers on the product collection inside the race
window between the pre-check and the decrement. `insertFault`, when set,
makes the `insert_one` call raise an unexpected storage exception with
that message instead of inserting. -/
def createOrderCore (db : DB) (o : OrderIn) (now : Nat)
    (interfere : List Product → List Product) (insertFault : Option String) :
    Except PyError OrderDoc × DB :=
  match get_product_by_id db.products o.product_id with
  | none => (Except.error (PyError.fileNotFoundError (notFoundMsg o.product_id)), db)
  | some product =>
    if product.available_quantity < o.quantity then
      (Except.error (PyError.valueError
        (insufficientMsg product.available_quantity o.quantity)), db)
    else
      match insertFault with
      | some m => (Except.error (PyError.otherError m), db)
      | none =>
        let doc : OrderDoc := ⟨db.nextOrderId, o.user_id, o.product_id, o.quantity, now⟩
        let inserted := db.orders ++ [doc]
        let r := update_product_quantity (interfere db.products) o.product_id (-o.quantity) now
        if r.1 then
          (Except.ok doc, ⟨r.2, inserted, db.nextOrderId + 1⟩)
        else
          (Except.error (PyError.valueError "Failed to update product quantity"),
           ⟨r.2, inserted.eraseP (fun d => d.id == doc.id), db.nextOrderId + 1⟩)

/-- `OrderService.create_order` (src/services/order_service.py lines
26-82): the `try` body wrapped by the `except` chain. -/
def create_order (db : DB) (o : OrderIn) (now : Nat)
    (interfere : List Product → List Product) (insertFault : Option String) :
    Except PyError OrderDoc × DB :=
  let r := createOrderCore db o now interfere insertFault
  (serviceWrap r.1, r.2)

/-- The exception-to-HTTP mapping of the `POST /orders` route handler
(src/routers/orders.py lines 19-43): `201` on success, `ValueError` to
`400` with the exception message, `FileNotFoundError` to `404` with the
exception message, any other exception to `500` with the constant detail
`"Failed to create order"`. -/
def orderRouteStatus (r : Except PyError OrderDoc) : Nat × String :=
  match r with
  | Except.ok _ => (201, "")
  | Except.error (PyError.valueError m) => (400, m)
  | Except.error (PyError.fileNotFoundError m) => (404, m)
  | Except.error (PyError.systemError _) => (500, "Failed to create order")
  | Except.error (PyError.otherError _) => (500, "Failed to create order")

/-- The stock invariant: every stored product has a non-negative
available quantity. -/
def AllNonneg (ps : List Product) : Prop :=
  ∀ p ∈ ps, 0 ≤ p.available_quantity

/-- One primitive write to the product collection: a validated product
creation, or one `update_product_quantity` call (with any argument,
covering both the workflow's decrements and positive restocks). These
are the only operations in the repository that write product
documents. -/
inductive ProdStep : List Product → List Product → Prop
  | create (ps : List Product) (pin : ProductIn) (v : ValidProduct) (newId now : Nat)
      (h : validateProductIn pin = Except.ok v) :
      ProdStep ps (create_product ps v newId now)
  | update (ps : List Product) (pid : Nat) (chg : Int) (now : Nat) :
      ProdStep ps (update_product_quantity ps pid chg now).2

/-- One step of the whole system: a primitive product-store write, or a
full `create_order` workflow run whose race window sees an arbitrary
finite sequence of concurrent primitive product-store writes. -/
inductive DBStep : DB → DB → Prop
  | store (db : DB) (ps2 : List Product) (h : ProdStep db.products ps2) :
      DBStep db ⟨ps2, db.orders, db.nextOrderId⟩
  | order (db : DB) (o : OrderIn) (now : Nat) (mid : List Product)
      (hmid : Relation.ReflTransGen ProdStep db.products mid) :
      DBStep db (create_order db o now (fun _ => mid) none).2

/-- Concrete product used by counterexamples and witnesses. -/
def pAbc : Product :=
  ⟨1, ['a', 'b', 'c'], 1, [['m']], 5, 0, 0⟩

/-- Concrete product with id 7 and stock 5. -/
def pStock : Product :=
  ⟨7, ['w'], 1, [['m']], 5, 0, 0⟩

/-- Concrete database holding only `pStock`, used by counterexamples and
witnesses of the order workflow. -/
def dbStock : DB :=
  ⟨[pStock], [], 100⟩

/-- Concrete order request against `pStock`: two units. -/
def oTwo : OrderIn :=
  ⟨"u1", 7, 2⟩

/-- Concrete interference: a concurrent request decrements product 7 by 4
inside the race window (the write of a racing order). -/
def interfereTake4 : List Product → List Product :=
  fun ps => (update_product_quantity ps 7 (-4) 0).2

/-! ## Helper lemmas about the conditional update -/

theorem minRequired_neg (a : Int) (h : 0 < a) : minRequired (-a) = a := by
  simp only [minRequired]
  rw [if_pos]
  · omega
  · omega

theorem minRequired_nonneg_of_pos (a : Int) (h : 0 < a) : minRequired a = 0 := by
  simp only [minRequired]
  rw [if_neg]
  omega

theorem updateOne_false_of_forall (ps : List Product) (pid : Nat) (chg : Int) (now : Nat)
    (h : ∀ p ∈ ps, updMatch pid chg p = false) :
    updateOne ps pid chg now = (false, ps) := by
  induction ps with
  | nil => rfl
  | cons p rest ih =>
    have hp := h p (List.mem_cons_self _ _)
    have hr := ih (fun q hq => h q (List.mem_cons_of_mem _ hq))
    simp [updateOne, hp, hr]

theorem updateOne_fst_iff (ps : List Product) (pid : Nat) (chg : Int) (now : Nat) :
    (updateOne ps pid chg now).1 = true ↔ ∃ p ∈ ps, updMatch pid chg p = true := by
  induction ps with
  | nil => simp [updateOne]
  | cons p rest ih =>
    by_cases hp : updMatch pid chg p
    · exact iff_of_true (by simp [updateOne, hp]) ⟨p, List.mem_cons_self _ _, hp⟩
    · have hp' : updMatch pid chg p = false := by simpa using hp
      simp only [updateOne, hp', Bool.false_eq_true, if_false]
      rw [ih]
      constructor
      · rintro ⟨q, hq, hm⟩
        exact ⟨q, List.mem_cons_of_mem _ hq, hm⟩
      · rintro ⟨q, hq, hm⟩
        rcases List.mem_cons.mp hq with h1 | h1
        · subst h1; rw [hp'] at hm; cases hm
        · exact ⟨q, h1, hm⟩

theorem updateOne_snd_of_false (ps : List Product) (pid : Nat) (chg : Int) (now : Nat)
    (h : (updateOne ps pid chg now).1 = false) :
    (updateOne ps pid chg now).2 = ps := by
  induction ps with
  | nil => rfl
  | cons p rest ih =>
    by_cases hp : updMatch pid chg p
    · simp [updateOne, hp] at h
    · have hp' : updMatch pid chg p = false := by simpa using hp
      simp only [updateOne, hp', Bool.false_eq_true, if_false] at h ⊢
      rw [ih h]

theorem map_upd_id (ps : List Product) (f : Product → Product) (pid : Nat)
    (h : ∀ q ∈ ps, q.id ≠ pid) :
    ps.map (fun q => if q.id = pid then f q else q) = ps := by
  induction ps with
  | nil => rfl
  | cons p rest ih =>
    have hp := h p (List.mem_cons_self _ _)
    simp only [List.map_cons, if_neg hp]
    rw [ih (fun q hq => h q (List.mem_cons_of_mem _ hq))]

theorem updateOne_eq_map (ps : List Product) (pid : Nat) (chg : Int) (now : Nat)
    (hnd : (ps.map Product.id).Nodup) (p : Product) (hp : p ∈ ps)
    (hm : updMatch pid chg p = true) :
    updateOne ps pid chg now =
      (true, ps.map (fun q => if q.id = pid then applyUpd chg now q else q)) := by
  induction ps with
  | nil => cases hp
  | cons q rest ih =>
    simp only [List.map_cons, List.nodup_cons] at hnd
    obtain ⟨hq_notin, hnd_rest⟩ := hnd
    have hmid : p.id = pid := by
      have := hm
      simp only [updMatch, Bool.and_eq_true, beq_iff_eq] at this
      exact this.1
    rcases List.mem_cons.mp hp with h1 | h1
    · subst h1
      simp only [updateOne, hm, if_pos, List.map_cons, if_pos hmid]
      have : rest.map (fun r => if r.id = pid then applyUpd chg now r else r) = rest := by
        apply map_upd_id
        intro r hr hrid
        apply hq_notin
        have hmem : r.id ∈ rest.map Product.id := List.mem_map_of_mem _ hr
        rw [hrid, ← hmid] at hmem
        exact hmem
      rw [this]
    · have hqid : q.id ≠ pid := by
        intro he
        apply hq_notin
        have hmem : p.id ∈ rest.map Product.id := List.mem_map_of_mem _ h1
        rw [hmid, ← he] at hmem
        exact hmem
      have hqm : updMatch pid chg q = false := by
        simp [updMatch, hqid]
      simp only [updateOne, hqm, Bool.false_eq_true, if_false, List.map_cons, if_neg hqid]
      rw [ih hnd_rest h1]

theorem updateOne_preserves_nonneg (ps : List Product) (pid : Nat) (chg : Int) (now : Nat)
    (h : AllNonneg ps) : AllNonneg (updateOne ps pid chg now).2 := by
  induction ps with
  | nil => exact h
  | cons p rest ih =>
    by_cases hp : updMatch pid chg p
    · simp only [updateOne, hp, if_pos]
      intro q hq
      rcases List.mem_cons.mp hq with h1 | h1
      · subst h1
        have hguard : minRequired chg ≤ p.available_quantity := by
          simp only [updMatch, Bool.and_eq_true, decide_eq_true_eq] at hp
          exact hp.2
        have hnn := h p (List.mem_cons_self _ _)
        simp only [applyUpd, minRequired] at hguard ⊢
        by_cases hc : chg < 0
        · rw [if_pos hc] at hguard; omega
        · rw [if_neg hc] at hguard; omega
      · exact h q (List.mem_cons_of_mem _ h1)
    · have hp' : updMatch pid chg p = false := by simpa using hp
      simp only [updateOne, hp', Bool.false_eq_true, if_false]
      intro q hq
      rcases List.mem_cons.mp hq with h1 | h1
      · subst h1; exact h q (List.mem_cons_self _ _)
      · exact ih (fun r hr => h r (List.mem_cons_of_mem _ hr)) q h1

/-! ## C1 -/

/-- C1: for every product id and positive amount, the conditional
decrement (`update_product_quantity` called with the negated amount)
returns `true`, reduces the stored quantity by exactly the amount and
refreshes `updated_at`, if and only if a product with that id exists and
its stored quantity is at least the amount; otherwise it returns `false`
and the collection is completely unchanged. -/
theorem decrement_quantity_spec (ps : List Product) (pid : Nat) (amount : Int) (now : Nat)
    (hpos : 0 < amount) (hnd : (ps.map Product.id).Nodup) :
    ((update_product_quantity ps pid (-amount) now).1 = true ↔
      ∃ p ∈ ps, p.id = pid ∧ amount ≤ p.available_quantity) ∧
    ((update_product_quantity ps pid (-amount) now).1 = true →
      (update_product_quantity ps pid (-amount) now).2 =
        ps.map (fun q => if q.id = pid then
          { q with available_quantity := q.available_quantity - amount, updated_at := now }
          else q)) ∧
    ((update_product_quantity ps pid (-amount) now).1 = false →
      (update_product_quantity ps pid (-amount) now).2 = ps) := by
  have hmr := minRequired_neg amount hpos
  have hmatch : ∀ p : Product, updMatch pid (-amount) p =
      (p.id == pid && decide (amount ≤ p.available_quantity)) := by
    intro p
    simp [updMatch, hmr]
  refine ⟨?_, ?_, ?_⟩
  · rw [update_product_quantity, updateOne_fst_iff]
    constructor
    · rintro ⟨p, hp, hm⟩
      rw [hmatch] at hm
      simp only [Bool.and_eq_true, beq_iff_eq, decide_eq_true_eq] at hm
      exact ⟨p, hp, hm.1, hm.2⟩
    · rintro ⟨p, hp, hid, hqty⟩
      refine ⟨p, hp, ?_⟩
      rw [hmatch]
      simp [hid, hqty]
  · intro htrue
    rw [update_product_quantity, updateOne_fst_iff] at htrue
    obtain ⟨p, hp, hm⟩ := htrue
    rw [update_product_quantity, updateOne_eq_map ps pid (-amount) now hnd p hp hm]
    apply List.map_congr_left
    intro q _
    by_cases hq : q.id = pid
    · simp only [if_pos hq, applyUpd, Int.sub_eq_add_neg]
    · simp [hq]
  · exact updateOne_snd_of_false ps pid (-amount) now

/-- Witness for C1 at a concrete input. -/
theorem decrement_quantity_spec_witness :
    (0 : Int) < 2 ∧ ([pStock].map Product.id).Nodup ∧
      (update_product_quantity [pStock] 7 (-2) 0).1 = true :=
  ⟨by decide, by decide,
    (decrement_quantity_spec [pStock] 7 2 0 (by decide) (by decide)).1.mpr
      ⟨pStock, by decide, rfl, by decide⟩⟩

/-! ## C10 -/

/-- C10: for every existing product and positive `quantity_change`,
`update_product_quantity` succeeds unconditionally: the guard embedded in
the update filter degenerates to `available_quantity ≥ 0` (which holds in
every state satisfying the stock invariant), the call returns `true`,
increases the quantity by `quantity_change` and refreshes `updated_at`,
so the same operation also serves as an unguarded restock. -/
theorem restock_unguarded (ps : List Product) (pid : Nat) (chg : Int) (now : Nat)
    (hpos : 0 < chg) (hnn : AllNonneg ps) (hnd : (ps.map Product.id).Nodup)
    (p : Product) (hp : p ∈ ps) (hid : p.id = pid) :
    minRequired chg = 0 ∧
    (update_product_quantity ps pid chg now).1 = true ∧
    (update_product_quantity ps pid chg now).2 =
      ps.map (fun q => if q.id = pid then
        { q with available_quantity := q.available_quantity + chg, updated_at := now }
        else q) := by
  have hm0 := minRequired_nonneg_of_pos chg hpos
  have hm : updMatch pid chg p = true := by
    simp only [updMatch, hm0, Bool.and_eq_true, beq_iff_eq, decide_eq_true_eq]
    exact ⟨hid, hnn p hp⟩
  have hmap := updateOne_eq_map ps pid chg now hnd p hp hm
  refine ⟨hm0, ?_, ?_⟩
  · rw [update_product_quantity, hmap]
  · rw [update_product_quantity, hmap]
    rfl

/-- Witness for C10 at a concrete input. -/
theorem restock_unguarded_witness :
    (0 : Int) < 3 ∧ (update_product_quantity [pStock] 7 3 0).1 = true :=
  ⟨by decide,
    (restock_unguarded [pStock] 7 3 0 (by decide)
      (by intro p hp; rcases List.mem_singleton.mp hp with h; subst h; decide)
      (by decide) pStock (List.mem_singleton.mpr rfl) rfl).2.1⟩

/-! ## C2 -/

theorem validateProductIn_ok (p : ProductIn) (v : ValidProduct)
    (h : validateProductIn p = Except.ok v) :
    stripChars p.name ≠ [] ∧ ¬ p.price ≤ 0 ∧ p.size ≠ [] ∧
    validate_sizes p.size = Except.ok v.size ∧ ¬ p.available_quantity < 0 ∧
    v.name = stripChars p.name ∧ v.available_quantity = p.available_quantity := by
  unfold validateProductIn at h
  by_cases h1 : p.name.length < 1
  · rw [if_pos h1] at h; simp at h
  rw [if_neg h1] at h
  by_cases h2 : 200 < p.name.length
  · rw [if_pos h2] at h; simp at h
  rw [if_neg h2] at h
  by_cases h3 : stripChars p.name = []
  · rw [if_pos h3] at h; simp at h
  rw [if_neg h3] at h
  by_cases h4 : p.price ≤ 0
  · rw [if_pos h4] at h; simp at h
  rw [if_neg h4] at h
  by_cases h5 : p.size.length < 1
  · rw [if_pos h5] at h; simp at h
  rw [if_neg h5] at h
  cases hvs : validate_sizes p.size with
  | error e => rw [hvs] at h; simp at h
  | ok sz =>
    rw [hvs] at h
    simp only [] at h
    by_cases h6 : p.available_quantity < 0
    · rw [if_pos h6] at h; simp at h
    rw [if_neg h6] at h
    injection h with h
    subst h
    refine ⟨h3, h4, ?_, rfl, h6, rfl, rfl⟩
    intro he
    rw [he] at h5
    simp at h5

theorem validateProductIn_ok_nonneg (p : ProductIn) (v : ValidProduct)
    (h : validateProductIn p = Except.ok v) : 0 ≤ v.available_quantity := by
  obtain ⟨-, -, -, -, hq, -, hv⟩ := validateProductIn_ok p v h
  omega

theorem create_product_preserves_nonneg (ps : List Product) (v : ValidProduct)
    (newId now : Nat) (hv : 0 ≤ v.available_quantity) (h : AllNonneg ps) :
    AllNonneg (create_product ps v newId now) := by
  intro q hq
  rcases List.mem_append.mp hq with h1 | h1
  · exact h q h1
  · rcases List.mem_singleton.mp h1 with h2
    subst h2
    exact hv

theorem prodStep_preserves_nonneg (ps ps' : List Product) (h : ProdStep ps ps')
    (hnn : AllNonneg ps) : AllNonneg ps' := by
  cases h with
  | create pin v newId now hv =>
    exact create_product_preserves_nonneg ps v newId now
      (validateProductIn_ok_nonneg pin v hv) hnn
  | update pid chg now =>
    exact updateOne_preserves_nonneg ps pid chg now hnn

theorem prodSteps_preserves_nonneg (ps ps' : List Product)
    (h : Relation.ReflTransGen ProdStep ps ps') (hnn : AllNonneg ps) :
    AllNonneg ps' := by
  induction h with
  | refl => exact hnn
  | tail _ hstep ih => exact prodStep_preserves_nonneg _ _ hstep ih

theorem create_order_products_nonneg (db : DB) (o : OrderIn) (now : Nat)
    (f : List Product → List Product) (fault : Option String)
    (hdb : AllNonneg db.products) (hf : AllNonneg (f db.products)) :
    AllNonneg (create_order db o now f fault).2.products := by
  unfold create_order createOrderCore
  cases hg : get_product_by_id db.products o.product_id with
  | none => exact hdb
  | some product =>
    by_cases hq : product.available_quantity < o.quantity
    · simp only [if_pos hq]
      exact hdb
    · simp only [if_neg hq]
      cases fault with
      | some m => exact hdb
      | none =>
        by_cases hr : (update_product_quantity (f db.products) o.product_id (-o.quantity) now).1
        · simp only [if_pos hr]
          exact updateOne_preserves_nonneg _ _ _ _ hf
        · simp only [if_neg hr]
          exact updateOne_preserves_nonneg _ _ _ _ hf

/-- C2: in every state reachable by any sequence of system operations
(validated product creations, quantity updates, and full order-creation
workflow runs — including failed and rolled-back ones, with arbitrary
concurrent product-store writes inside the race window), every product's
`available_quantity` is non-negative. -/
theorem available_quantity_nonneg_invariant (db0 db : DB)
    (h0 : AllNonneg db0.products)
    (hr : Relation.ReflTransGen DBStep db0 db) :
    ∀ p ∈ db.products, 0 ≤ p.available_quantity := by
  induction hr with
  | refl => exact h0
  | tail _ hstep ih =>
    cases hstep with
    | store ps2 h => exact prodStep_preserves_nonneg _ _ h ih
    | order o now mid hmid =>
      exact create_order_products_nonneg _ o now (fun _ => mid) none ih
        (prodSteps_preserves_nonneg _ _ hmid ih)

/-- Witness for C2 at a concrete input. -/
theorem available_quantity_nonneg_invariant_witness :
    AllNonneg dbStock.products ∧
      ∀ p ∈ dbStock.products, 0 ≤ p.available_quantity :=
  ⟨by intro p hp; rcases List.mem_singleton.mp hp with h; subst h; decide,
   available_quantity_nonneg_invariant dbStock dbStock
     (by intro p hp; rcases List.mem_singleton.mp hp with h; subst h; decide)
     Relation.ReflTransGen.refl⟩

/-! ## C4 -/

/-- C4: a `create_order` call against an absent product fails with the
`FileNotFoundError` (the workflow's `NotFound`), and a call whose
requested quantity exceeds the product's stock fails with the
insufficient-stock `ValueError`; in both cases the failure is terminal
and the whole database state — orders and products — is unchanged,
whatever interference or storage fault would have hit the later steps. -/
theorem create_order_precheck_failures (db : DB) (o : OrderIn) (now : Nat)
    (f : List Product → List Product) (fault : Option String) :
    (get_product_by_id db.products o.product_id = none →
      create_order db o now f fault =
        (Except.error (PyError.fileNotFoundError (notFoundMsg o.product_id)), db)) ∧
    (∀ p, get_product_by_id db.products o.product_id = some p →
      p.available_quantity < o.quantity →
      create_order db o now f fault =
        (Except.error (PyError.valueError
          (insufficientMsg p.available_quantity o.quantity)), db)) := by
  constructor
  · intro hg
    simp [create_order, createOrderCore, hg, serviceWrap]
  · intro p hg hq
    simp [create_order, createOrderCore, hg, if_pos hq, serviceWrap]

/-- Witness for C4 at two concrete inputs, one per failure mode. -/
theorem create_order_precheck_failures_witness :
    (create_order ⟨[], [], 0⟩ oTwo 0 id none =
      (Except.error (PyError.fileNotFoundError (notFoundMsg 7)), ⟨[], [], 0⟩)) ∧
    (create_order dbStock ⟨"u1", 7, 9⟩ 0 id none =
      (Except.error (PyError.valueError (insufficientMsg 5 9)), dbStock)) :=
  ⟨(create_order_precheck_failures ⟨[], [], 0⟩ oTwo 0 id none).1 rfl,
   (create_order_precheck_failures dbStock ⟨"u1", 7, 9⟩ 0 id none).2 pStock rfl
     (by decide)⟩

/-! ## The successful path of the workflow, shared by C6 -/

theorem get_product_by_id_mem (ps : List Product) (pid : Nat) (p : Product)
    (h : get_product_by_id ps pid = some p) : p ∈ ps ∧ p.id = pid := by
  refine ⟨List.mem_of_find?_eq_some h, ?_⟩
  have := List.find?_some h
  simpa using this

theorem create_order_success (db : DB) (o : OrderIn) (now : Nat)
    (hnd : (db.products.map Product.id).Nodup)
    (p : Product) (hfind : get_product_by_id db.products o.product_id = some p)
    (hq : o.quantity ≤ p.available_quantity) (hqpos : 0 < o.quantity) :
    create_order db o now id none =
      (Except.ok ⟨db.nextOrderId, o.user_id, o.product_id, o.quantity, now⟩,
       ⟨db.products.map (fun q => if q.id = o.product_id then
           applyUpd (-o.quantity) now q else q),
        db.orders ++ [⟨db.nextOrderId, o.user_id, o.product_id, o.quantity, now⟩],
        db.nextOrderId + 1⟩) := by
  obtain ⟨hmem, hid⟩ := get_product_by_id_mem _ _ _ hfind
  have hm : updMatch o.product_id (-o.quantity) p = true := by
    simp only [updMatch, minRequired_neg o.quantity hqpos, Bool.and_eq_true,
      beq_iff_eq, decide_eq_true_eq]
    exact ⟨hid, hq⟩
  have hupd := updateOne_eq_map db.products o.product_id (-o.quantity) now hnd p hmem hm
  have hnotlt : ¬ p.available_quantity < o.quantity := not_lt.mpr hq
  simp only [create_order, createOrderCore, hfind, if_neg hnotlt, id_eq,
    update_product_quantity, hupd, if_pos, serviceWrap]

theorem upd_map_ids (ps : List Product) (pid : Nat) (chg : Int) (now : Nat) :
    (ps.map (fun q => if q.id = pid then applyUpd chg now q else q)).map Product.id =
      ps.map Product.id := by
  rw [List.map_map]
  apply List.map_congr_left
  intro q _
  by_cases h : q.id = pid <;> simp [h, applyUpd]

theorem get_upd_map (ps : List Product) (pid : Nat) (chg : Int) (now : Nat) :
    get_product_by_id (ps.map (fun q => if q.id = pid then applyUpd chg now q else q)) pid =
      (get_product_by_id ps pid).map
        (fun q => if q.id = pid then applyUpd chg now q else q) := by
  unfold get_product_by_id
  rw [List.find?_map]
  have hpred : ((fun p : Product => p.id == pid) ∘
      fun q => if q.id = pid then applyUpd chg now q else q) =
      fun q : Product => q.id == pid := by
    funext q
    by_cases h : q.id = pid <;> simp [h, applyUpd]
  rw [hpred]

/-! ## C6 -/

/-- C6: the workflow is not idempotent — starting from any state whose
product has stock at least twice the requested quantity, two successive
`create_order` calls with identical arguments both succeed, produce two
orders with distinct ids, and leave the product's stock reduced by twice
the quantity. -/
theorem create_order_not_idempotent (db : DB) (o : OrderIn) (n1 n2 : Nat)
    (hnd : (db.products.map Product.id).Nodup)
    (p : Product) (hfind : get_product_by_id db.products o.product_id = some p)
    (hqpos : 0 < o.quantity) (hstock : 2 * o.quantity ≤ p.available_quantity) :
    ∃ d1 d2 db1 db2,
      create_order db o n1 id none = (Except.ok d1, db1) ∧
      create_order db1 o n2 id none = (Except.ok d2, db2) ∧
      d1.id ≠ d2.id ∧
      ∃ p2, get_product_by_id db2.products o.product_id = some p2 ∧
        p2.available_quantity = p.available_quantity - 2 * o.quantity := by
  have hq1 : o.quantity ≤ p.available_quantity := by omega
  obtain ⟨hmem, hid⟩ := get_product_by_id_mem _ _ _ hfind
  have h1 := create_order_success db o n1 hnd p hfind hq1 hqpos
  have hnd1 : ((db.products.map (fun q =>
      if q.id = o.product_id then applyUpd (-o.quantity) n1 q else q)).map
        Product.id).Nodup := by
    rw [upd_map_ids]
    exact hnd
  have hfind1 : get_product_by_id (db.products.map (fun q =>
      if q.id = o.product_id then applyUpd (-o.quantity) n1 q else q)) o.product_id =
      some (applyUpd (-o.quantity) n1 p) := by
    rw [get_upd_map, hfind]
    simp [hid]
  have hq2 : o.quantity ≤ (applyUpd (-o.quantity) n1 p).available_quantity := by
    simp only [applyUpd]
    omega
  have h2 := create_order_success
    ⟨db.products.map (fun q =>
       if q.id = o.product_id then applyUpd (-o.quantity) n1 q else q),
     db.orders ++ [⟨db.nextOrderId, o.user_id, o.product_id, o.quantity, n1⟩],
     db.nextOrderId + 1⟩ o n2 hnd1 (applyUpd (-o.quantity) n1 p) hfind1 hq2 hqpos
  refine ⟨_, _, _, _, h1, h2, ?_, ?_⟩
  · dsimp only
    omega
  · refine ⟨applyUpd (-o.quantity) n2 (applyUpd (-o.quantity) n1 p), ?_, ?_⟩
    · dsimp only
      rw [get_upd_map, hfind1]
      simp [applyUpd, hid]
    · simp only [applyUpd]
      omega

/-- Witness for C6 at a concrete input. -/
theorem create_order_not_idempotent_witness :
    (0 : Int) < 2 ∧
    ∃ d1 d2 db1 db2,
      create_order dbStock oTwo 0 id none = (Except.ok d1, db1) ∧
      create_order db1 oTwo 1 id none = (Except.ok d2, db2) ∧
      d1.id ≠ d2.id ∧
      ∃ p2, get_product_by_id db2.products oTwo.product_id = some p2 ∧
        p2.available_quantity = pStock.available_quantity - 2 * oTwo.quantity :=
  ⟨by decide,
   create_order_not_idempotent dbStock oTwo 0 1 (by decide) pStock rfl
     (by decide) (by decide)⟩

/-! ## C3 -/

/-- C3 counterexample: a run in which the order was inserted and the
decrement then failed (a concurrent order consumed the stock inside the
race window). The workflow raises `ValueError("Failed to update product
quantity")` — not `SystemError` — and the HTTP boundary maps it to status
400, not to a 500-class response, refuting the claim's error kind and
status (the compensating delete itself does happen, see the amended
theorem). -/
theorem rollback_counterexample :
    (create_order dbStock oTwo 1 interfereTake4 none).1 =
      Except.error (PyError.valueError "Failed to update product quantity") ∧
    (orderRouteStatus (create_order dbStock oTwo 1 interfereTake4 none).1).1 = 400 ∧
    (orderRouteStatus (create_order dbStock oTwo 1 interfereTake4 none).1).1 ≠ 500 := by
  refine ⟨rfl, rfl, by decide⟩

/-- C3 amended: in every `create_order` run in which the pre-checks pass
but the conditional decrement fails, the workflow deletes the
just-inserted order — the stored order collection is exactly what it was
before the call, so the order is absent from subsequent listings — and
raises `ValueError("Failed to update product quantity")`, which the HTTP
boundary surfaces as status 400 with that message (not as a 500-class
`SystemError`). -/
theorem rollback_on_decrement_failure (db : DB) (o : OrderIn) (now : Nat)
    (g : List Product → List Product) (p : Product)
    (hfind : get_product_by_id db.products o.product_id = some p)
    (hq : ¬ p.available_quantity < o.quantity)
    (hfail : (update_product_quantity (g db.products) o.product_id (-o.quantity) now).1
      = false)
    (hfresh : ∀ d ∈ db.orders, d.id ≠ db.nextOrderId) :
    (create_order db o now g none).1 =
      Except.error (PyError.valueError "Failed to update product quantity") ∧
    (create_order db o now g none).2.orders = db.orders ∧
    orderRouteStatus (create_order db o now g none).1 =
      (400, "Failed to update product quantity") := by
  have hfail' : (update_product_quantity (g db.products) o.product_id (-o.quantity) now).1
      ≠ true := by
    rw [hfail]
    exact Bool.false_ne_true
  have herase : (db.orders ++
      [(⟨db.nextOrderId, o.user_id, o.product_id, o.quantity, now⟩ : OrderDoc)]).eraseP
        (fun d => d.id == db.nextOrderId) = db.orders := by
    rw [List.eraseP_append_right _ (by
      intro d hd
      simp only [beq_iff_eq]
      exact hfresh d hd)]
    simp
  refine ⟨?_, ?_, ?_⟩
  · simp only [create_order, createOrderCore, hfind, if_neg hq, if_neg hfail', serviceWrap]
  · simp only [create_order, createOrderCore, hfind, if_neg hq, if_neg hfail']
    exact herase
  · simp only [create_order, createOrderCore, hfind, if_neg hq, if_neg hfail',
      serviceWrap, orderRouteStatus]

/-- Witness for the amended C3 at a concrete input. -/
theorem rollback_on_decrement_failure_witness :
    (create_order dbStock oTwo 1 interfereTake4 none).2.orders = dbStock.orders :=
  (rollback_on_decrement_failure dbStock oTwo 1 interfereTake4 pStock rfl
    (by decide) (by decide) (by intro d hd; cases hd)).2.1

/-! ## C5 -/

/-- C5 counterexample: a `POST /orders` request that fails because of an
unexpected storage failure (the order insert raises a non-domain
exception). The service wraps the exception in
`ValueError("Failed to create order due to system error")` and the router
maps `ValueError` to status 400 — not 500 — refuting the claimed status
(the generic, non-leaking message part of the claim does hold, see the
amended theorem). -/
theorem storage_failure_counterexample :
    (orderRouteStatus (create_order dbStock oTwo 0 id (some "socket timeout")).1).1
      = 400 ∧
    (orderRouteStatus (create_order dbStock oTwo 0 id (some "socket timeout")).1).1
      ≠ 500 := by
  refine ⟨by decide, by decide⟩

/-- C5 amended: a `POST /orders` request that fails due to an unexpected
storage failure inside the order workflow (after the pre-checks pass) is
answered with status 400 — not 500 — carrying the generic message
`"Failed to create order due to system error"`, which is independent of
the underlying exception's text, so no storage internals leak; the
database is unchanged. -/
theorem storage_failure_amended (db : DB) (o : OrderIn) (now : Nat)
    (f : List Product → List Product) (m : String) (p : Product)
    (hfind : get_product_by_id db.products o.product_id = some p)
    (hq : ¬ p.available_quantity < o.quantity) :
    (create_order db o now f (some m)).1 =
      Except.error (PyError.valueError "Failed to create order due to system error") ∧
    (create_order db o now f (some m)).2 = db ∧
    orderRouteStatus (create_order db o now f (some m)).1 =
      (400, "Failed to create order due to system error") := by
  refine ⟨?_, ?_, ?_⟩ <;>
    simp only [create_order, createOrderCore, hfind, if_neg hq, serviceWrap,
      orderRouteStatus]

/-- Witness for the amended C5 at a concrete input. -/
theorem storage_failure_amended_witness :
    (create_order dbStock oTwo 0 id (some "socket timeout")).1 =
      Except.error (PyError.valueError "Failed to create order due to system error") :=
  (storage_failure_amended dbStock oTwo 0 id "socket timeout" pStock rfl
    (by decide)).1

/-! ## C7 -/

theorem litPrefCI_nil (s : List Char) : litPrefCI [] s = true := by
  cases s <;> rfl

theorem litSubstrCI_nil (s : List Char) : litSubstrCI [] s = true := by
  induction s with
  | nil => rfl
  | cons c cr ih => rfl

theorem matchHere_eq_litPrefCI (pat : List Char) (h : '.' ∉ pat) (s : List Char) :
    matchHere pat s = litPrefCI pat s := by
  induction pat generalizing s with
  | nil => cases s <;> rfl
  | cons pc pr ih =>
    cases s with
    | nil => rfl
    | cons c cr =>
      have hpc : pc ≠ '.' := fun he => h (he ▸ List.mem_cons_self _ _)
      have hdot : (pc == '.') = false := by simpa using hpc
      simp only [matchHere, litPrefCI, charPatMatch, hdot, Bool.false_or,
        ih (fun hm => h (List.mem_cons_of_mem _ hm))]

theorem regexSearch_eq_litSubstrCI (pat : List Char) (h : '.' ∉ pat) (s : List Char) :
    regexSearch pat s = litSubstrCI pat s := by
  induction s with
  | nil =>
    simp only [regexSearch, litSubstrCI, matchHere_eq_litPrefCI pat h]
  | cons c cr ih =>
    simp only [regexSearch, litSubstrCI, matchHere_eq_litPrefCI pat h, ih]

/-- C7 counterexample: the name filter string is handed to the store as a
regular-expression pattern, not escaped as a literal. The filter
`"a.c"` matches the stored name `"abc"` (the listing returns the
product), although `"a.c"` is not a case-insensitive literal substring of
`"abc"` — refuting the claim that the listing returns exactly the
products whose name contains the filter as a literal substring. -/
theorem name_filter_counterexample :
    list_products [pAbc] (some ['a', '.', 'c']) none none = [pAbc] ∧
    litSubstrCI ['a', '.', 'c'] pAbc.name = false := by
  exact ⟨rfl, rfl⟩

/-- C7 amended: the name filter is a case-insensitive regular-expression
pattern (`$regex` with `$options: "i"`), not an escaped literal; only
when the filter contains no PCRE regex metacharacter at all
(`isRegexMeta` is false on every character, so the server reads the
whole pattern literally and the embedded model agrees with the server)
does the listing return exactly the products whose name contains the
filter as a case-insensitive literal substring. The empty filter is
Python-falsy and disables filtering, which agrees with the trivial
substring reading. -/
theorem name_filter_literal_when_no_metachar (ps : List Product) (f : List Char)
    (hf : ∀ c ∈ f, isRegexMeta c = false) :
    list_products ps (some f) none none =
      sortById (ps.filter (fun p => litSubstrCI f p.name)) := by
  have hdot : '.' ∉ f := fun hm => absurd (hf '.' hm) (by decide)
  have h1 : list_products ps (some f) none none =
      sortById (if f = [] then ps else ps.filter (fun p => regexSearch f p.name)) := rfl
  by_cases he : f = []
  · subst he
    rw [h1, if_pos rfl,
      List.filter_eq_self.mpr (fun a _ => litSubstrCI_nil a.name)]
  · rw [h1, if_neg he]
    congr 1
    apply List.filter_congr
    intro p _
    exact regexSearch_eq_litSubstrCI f hdot p.name

/-- Witness for the amended C7 at a concrete input. -/
theorem name_filter_literal_witness :
    (∀ c ∈ ['a', 'b'], isRegexMeta c = false) ∧
    list_products [pAbc] (some ['a', 'b']) none none =
      sortById ([pAbc].filter (fun p => litSubstrCI ['a', 'b'] p.name)) :=
  ⟨by decide, name_filter_literal_when_no_metachar [pAbc] ['a', 'b'] (by decide)⟩

/-! ## C9 -/

/-- C9: with the `limit ∈ [1,100]`, `offset ≥ 0` contract and unique ids,
the paged product listing is exactly the contiguous slice
`[offset, offset+limit)` of the one id-ascending ordering of the whole
collection, every page is itself ordered by id ascending, and two
successive pages share no product — stable, non-overlapping
pagination. -/
theorem pagination_spec (ps : List Product) (limit offset : Nat)
    (h1 : 1 ≤ limit) (h2 : limit ≤ 100) (hnd : (ps.map Product.id).Nodup) :
    list_products ps none none (some ⟨limit, offset⟩) =
      ((list_products ps none none none).drop offset).take limit ∧
    List.Pairwise (fun a b : Product => a.id ≤ b.id)
      (list_products ps none none (some ⟨limit, offset⟩)) ∧
    ∀ x ∈ list_products ps none none (some ⟨limit, offset⟩),
      x ∉ list_products ps none none (some ⟨limit, offset + limit⟩) := by
  haveI : IsTotal Product (fun a b => a.id ≤ b.id) :=
    ⟨fun a b => Nat.le_total a.id b.id⟩
  haveI : IsTrans Product (fun a b => a.id ≤ b.id) :=
    ⟨fun a b c hab hbc => Nat.le_trans hab hbc⟩
  have hsorted : List.Pairwise (fun a b : Product => a.id ≤ b.id) (sortById ps) :=
    List.sorted_insertionSort _ ps
  have hsub : (((sortById ps).drop offset).take limit).Sublist (sortById ps) :=
    (List.take_sublist _ _).trans (List.drop_sublist _ _)
  have hndup : (sortById ps).Nodup := by
    apply List.Nodup.of_map Product.id
    exact (((List.perm_insertionSort _ ps).map Product.id).symm).nodup hnd
  refine ⟨rfl, List.Pairwise.sublist hsub hsorted, ?_⟩
  intro x hx hx2
  have hx' : x ∈ ((sortById ps).drop offset).take limit := hx
  have hx2' : x ∈ (sortById ps).drop (offset + limit) :=
    List.take_subset _ _ hx2
  rw [← List.drop_drop] at hx2'
  exact List.disjoint_take_drop
    (List.Nodup.sublist (List.drop_sublist _ _) hndup) (le_refl limit) hx' hx2'

/-- Witness for C9 at a concrete input. -/
theorem pagination_spec_witness :
    1 ≤ 1 ∧ (1 : Nat) ≤ 100 ∧
    list_products [pStock, pAbc] none none (some ⟨1, 1⟩) =
      ((list_products [pStock, pAbc] none none none).drop 1).take 1 :=
  ⟨le_refl 1, by decide,
   (pagination_spec [pStock, pAbc] 1 1 (by decide) (by decide) (by decide)).1⟩

/-! ## C8: character-level facts about strip and lower -/

theorem toNat_ofNat_valid (n : Nat) (h : n.isValidChar) : (Char.ofNat n).toNat = n := by
  unfold Char.ofNat
  rw [dif_pos h]
  rfl

theorem toLower_eq_ite (c : Char) :
    c.toLower = if c.toNat ≥ 65 ∧ c.toNat ≤ 90 then Char.ofNat (c.toNat + 32) else c := rfl

theorem toLower_toLower (c : Char) : c.toLower.toLower = c.toLower := by
  rw [toLower_eq_ite c]
  by_cases h : c.toNat ≥ 65 ∧ c.toNat ≤ 90
  · rw [if_pos h, toLower_eq_ite]
    have ht : (Char.ofNat (c.toNat + 32)).toNat = c.toNat + 32 :=
      toNat_ofNat_valid _ (Or.inl (by omega))
    rw [if_neg (by rw [ht]; omega)]
  · rw [if_neg h, toLower_eq_ite, if_neg h]

theorem isWhitespace_toLower (c : Char) : c.toLower.isWhitespace = c.isWhitespace := by
  rw [toLower_eq_ite c]
  by_cases h : c.toNat ≥ 65 ∧ c.toNat ≤ 90
  · rw [if_pos h]
    have ht : (Char.ofNat (c.toNat + 32)).toNat = c.toNat + 32 :=
      toNat_ofNat_valid _ (Or.inl (by omega))
    have hl : (Char.ofNat (c.toNat + 32)).isWhitespace = false := by
      unfold Char.isWhitespace
      have e1 : ¬ (Char.ofNat (c.toNat + 32) = ' ') := by
        intro he
        rw [he] at ht
        have : (' ').toNat = 32 := rfl
        omega
      have e2 : ¬ (Char.ofNat (c.toNat + 32) = '\t') := by
        intro he
        rw [he] at ht
        have : ('\t').toNat = 9 := rfl
        omega
      have e3 : ¬ (Char.ofNat (c.toNat + 32) = '\x0d') := by
        intro he
        rw [he] at ht
        have : ('\x0d').toNat = 13 := rfl
        omega
      have e4 : ¬ (Char.ofNat (c.toNat + 32) = '\n') := by
        intro he
        rw [he] at ht
        have : ('\n').toNat = 10 := rfl
        omega
      simp [e1, e2, e3, e4]
    have hr : c.isWhitespace = false := by
      unfold Char.isWhitespace
      have e1 : ¬ (c = ' ') := by
        intro he
        have : c.toNat = 32 := by rw [he]; rfl
        omega
      have e2 : ¬ (c = '\t') := by
        intro he
        have : c.toNat = 9 := by rw [he]; rfl
        omega
      have e3 : ¬ (c = '\x0d') := by
        intro he
        have : c.toNat = 13 := by rw [he]; rfl
        omega
      have e4 : ¬ (c = '\n') := by
        intro he
        have : c.toNat = 10 := by rw [he]; rfl
        omega
      simp [e1, e2, e3, e4]
    rw [hl, hr]
  · rw [if_neg h]

theorem lowerChars_lowerChars (l : List Char) :
    lowerChars (lowerChars l) = lowerChars l := by
  unfold lowerChars
  rw [List.map_map]
  apply List.map_congr_left
  intro c _
  exact toLower_toLower c

theorem stripChars_lowerChars (l : List Char) :
    stripChars (lowerChars l) = lowerChars (stripChars l) := by
  unfold stripChars lowerChars
  have hp : (Char.isWhitespace ∘ Char.toLower) = Char.isWhitespace := by
    funext c
    exact isWhitespace_toLower c
  rw [List.dropWhile_map, hp, ← List.map_reverse, List.dropWhile_map, hp,
    ← List.map_reverse]

theorem dropWhile_idem (p : Char → Bool) (l : List Char) :
    (l.dropWhile p).dropWhile p = l.dropWhile p := by
  induction l with
  | nil => rfl
  | cons x xs ih =>
    by_cases hx : p x = true
    · rw [List.dropWhile_cons, if_pos hx]
      exact ih
    · rw [List.dropWhile_cons, if_neg hx, List.dropWhile_cons, if_neg hx]

theorem dropWhile_head_false (p : Char → Bool) (l : List Char) (c : Char)
    (t : List Char) (h : l.dropWhile p = c :: t) : p c = false := by
  induction l with
  | nil => cases h
  | cons x xs ih =>
    rw [List.dropWhile_cons] at h
    by_cases hx : p x = true
    · rw [if_pos hx] at h
      exact ih h
    · rw [if_neg hx] at h
      injection h with h1 _
      subst h1
      simpa using hx

theorem stripChars_idem (l : List Char) : stripChars (stripChars l) = stripChars l := by
  have hdef : ∀ x : List Char, stripChars x =
      ((x.dropWhile Char.isWhitespace).reverse.dropWhile Char.isWhitespace).reverse :=
    fun _ => rfl
  have hb : (stripChars l).reverse =
      (l.dropWhile Char.isWhitespace).reverse.dropWhile Char.isWhitespace := by
    rw [hdef l, List.reverse_reverse]
  have step1 : (stripChars l).dropWhile Char.isWhitespace = stripChars l := by
    cases hsl : stripChars l with
    | nil => rfl
    | cons c t =>
      have hsuf : (l.dropWhile Char.isWhitespace).reverse.dropWhile Char.isWhitespace
          <:+ (l.dropWhile Char.isWhitespace).reverse := List.dropWhile_suffix _
      rw [← hb, hsl] at hsuf
      have hpre : (c :: t) <+: l.dropWhile Char.isWhitespace :=
        List.reverse_suffix.mp hsuf
      obtain ⟨u, hu⟩ := hpre
      have hc : Char.isWhitespace c = false := by
        apply dropWhile_head_false Char.isWhitespace l c (t ++ u)
        rw [← hu]
        rfl
      rw [List.dropWhile_cons, if_neg (by simp [hc])]
  rw [hdef (stripChars l), step1, hb, dropWhile_idem, ← hb, List.reverse_reverse]

theorem stripChars_lower_strip (s : List Char) :
    stripChars (lowerChars (stripChars s)) = lowerChars (stripChars s) := by
  rw [stripChars_lowerChars, stripChars_idem]

theorem validateSizesGo_ok (l : List (List Char)) (vs : List (List Char))
    (h : validateSizesGo l = Except.ok vs) :
    vs = l.map (fun s => lowerChars (stripChars s)) ∧
    ∀ s ∈ l, stripChars s ≠ [] := by
  induction l generalizing vs with
  | nil =>
    injection h with h
    subst h
    exact ⟨rfl, by intro s hs; cases hs⟩
  | cons s rest ih =>
    unfold validateSizesGo at h
    by_cases ht : stripChars s = []
    · rw [if_pos ht] at h
      cases h
    · rw [if_neg ht] at h
      cases hr : validateSizesGo rest with
      | error e =>
        rw [hr] at h
        cases h
      | ok vs2 =>
        rw [hr] at h
        injection h with h
        obtain ⟨h1, h2⟩ := ih vs2 hr
        subst h
        refine ⟨by rw [h1]; rfl, ?_⟩
        intro x hx
        rcases List.mem_cons.mp hx with h3 | h3
        · subst h3
          exact ht
        · exact h2 x h3

/-! ## C8 -/

/-- C8 counterexample: the sizes validator strips and lower-cases each
entry but never collapses duplicates — a `List`, not a set, reaches the
store. The input sizes `["M", "m"]` validate successfully to the stored
collection `["m", "m"]`, which contains two equal entries, refuting the
claim that no two stored size entries are equal. -/
theorem size_normalization_counterexample :
    validateProductIn ⟨['w'], 1, [['M'], ['m']], 5⟩ =
      Except.ok ⟨['w'], 1, [['m'], ['m']], 5⟩ ∧
    ¬ (⟨['w'], 1, [['m'], ['m']], 5⟩ : ValidProduct).size.Nodup := by
  exact ⟨rfl, by decide⟩

/-- C8 amended: for every successful product creation the stored size
collection is a non-empty list of non-empty, trimmed, lower-cased
strings — each entry is exactly the lower-cased strip of the
corresponding input entry, in input order, and duplicates are NOT
collapsed (two equal entries may be stored); creation is rejected with a
validation error when the name is empty after trimming, the price is
non-positive, or the size list is empty. -/
theorem size_normalization_amended (p : ProductIn) :
    (∀ v, validateProductIn p = Except.ok v →
      v.size = p.size.map (fun s => lowerChars (stripChars s)) ∧
      v.size ≠ [] ∧
      ∀ s ∈ v.size, s ≠ [] ∧ stripChars s = s ∧ lowerChars s = s) ∧
    (stripChars p.name = [] → ∀ v, validateProductIn p ≠ Except.ok v) ∧
    (p.price ≤ 0 → ∀ v, validateProductIn p ≠ Except.ok v) ∧
    (p.size = [] → ∀ v, validateProductIn p ≠ Except.ok v) := by
  refine ⟨?_, ?_, ?_, ?_⟩
  · intro v hv
    obtain ⟨hnm, hpr, hsz, hvs, hq, -, -⟩ := validateProductIn_ok p v hv
    unfold validate_sizes at hvs
    rw [if_neg hsz] at hvs
    obtain ⟨h1, h2⟩ := validateSizesGo_ok _ _ hvs
    refine ⟨h1, ?_, ?_⟩
    · rw [h1]
      intro he
      exact hsz (List.map_eq_nil_iff.mp he)
    · intro s hs
      rw [h1] at hs
      obtain ⟨s0, hs0, rfl⟩ := List.mem_map.mp hs
      refine ⟨?_, stripChars_lower_strip s0, lowerChars_lowerChars _⟩
      intro he
      apply h2 s0 hs0
      unfold lowerChars at he
      exact List.map_eq_nil_iff.mp he
  · intro hnm v hv
    obtain ⟨h, -⟩ := validateProductIn_ok p v hv
    exact h hnm
  · intro hpr v hv
    obtain ⟨-, h, -⟩ := validateProductIn_ok p v hv
    exact h hpr
  · intro hsz v hv
    obtain ⟨-, -, h, -⟩ := validateProductIn_ok p v hv
    exact h hsz

/-- Witness for the amended C8 at a concrete input. -/
theorem size_normalization_amended_witness :
    validateProductIn ⟨['M'], 1, [['M']], 5⟩ = Except.ok ⟨['M'], 1, [['m']], 5⟩ ∧
    (⟨['M'], 1, [['m']], 5⟩ : ValidProduct).size =
      [['M']].map (fun s => lowerChars (stripChars s)) :=
  ⟨rfl,
   ((size_normalization_amended ⟨['M'], 1, [['M']], 5⟩).1
     ⟨['M'], 1, [['m']], 5⟩ rfl).1⟩

end Shop
